import Mathlib

/-!
# Verification of the testflinger v1 API core (src/testflinger/v1.py)

A shallow embedding of the testflinger v1 HTTP handlers.  The external
collaborators are modelled explicitly and purely:

* the Redis instance becomes two association lists — `queues` (job queues,
  written by `lpush`, read by `brpop`) and `streams` (output streams
  `stream_<job_id>`, written by `rpush`, drained by the atomic
  `lrange`+`delete` pipeline) — plus a `streamTTL` map recording `expire`
  calls;
* the `DATA_PATH` directory becomes an association list `files` from file
  names to file contents (`FileData.text` for JSON result records written
  with `open(...,'w')`, `FileData.blob` for artifact uploads saved with
  `file.save`);
* JSON (de)serialisation of the request/queue payloads is modelled as the
  identity injection: a queue holds `JobData` values rather than their
  `json.dumps` rendering, and a result record holds the posted document's
  JSON text verbatim.  The one JSON text the core itself produces,
  `json.dumps({'job_state': ...})`, is rendered concretely by
  `jobStateJson`;
* each handler additionally returns the list of side effects it performed
  against the backing stores, in execution order (`Effect`), so that
  "no store access" and effect-ordering statements are expressible.

Machine-level concerns (real time of the 1-second `brpop` timeout, bytes
vs. str decoding, concurrent interleavings) are outside the embedding; the
functional content of every handler is translated faithfully from the
source, branch by branch.
-/

set_option autoImplicit false

namespace Testflinger

/-! ## Association lists (string-keyed finite maps) -/

/-- First value bound to `k`, if any. -/
def lookupL {α : Type} (m : List (String × α)) (k : String) : Option α :=
  match m with
  | [] => none
  | (k', v) :: rest => if k' = k then some v else lookupL rest k

/-- Remove every binding of `k`. -/
def removeL {α : Type} (m : List (String × α)) (k : String) : List (String × α) :=
  match m with
  | [] => []
  | (k', v) :: rest => if k' = k then removeL rest k else (k', v) :: removeL rest k

/-- Bind `k` to `v`, dropping previous bindings of `k`. -/
def insertL {α : Type} (m : List (String × α)) (k : String) (v : α) :
    List (String × α) :=
  (k, v) :: removeL m k

/-- Lookup with a default value (Redis reads of a missing list key give `[]`). -/
def lookupD {α : Type} (m : List (String × α)) (k : String) (d : α) : α :=
  (lookupL m k).getD d

/-! ## Identity & validation: `check_valid_uuid`

`check_valid_uuid` calls `uuid.UUID(job_id)` under a bare `except:`.
CPython's `uuid.UUID(hex)` string path does

    hex = hex.replace('urn:', '').replace('uuid:', '')
    hex = hex.strip('{}').replace('-', '')
    if len(hex) != 32: raise ValueError(...)
    int(hex, 16)

We model each string operation on `List Char`.  `int(hex, 16)` success is
modelled as "all 32 characters are hexadecimal digits" (Python's residual
tolerance for a sign, surrounding whitespace or inner underscores inside
the 32-character window is not modelled; it does not affect any claim). -/

/-- Python's `str.replace(sub, '')`: delete left-to-right non-overlapping
occurrences of `sub`.  Structural recursion on a fuel bound (`l.length`
suffices for the non-empty patterns used here) keeps the definition
kernel-reducible. -/
def pyReplaceAux (sub : List Char) : Nat → List Char → List Char
  | _, [] => []
  | 0, l => l
  | fuel + 1, c :: rest =>
    if sub.isPrefixOf (c :: rest) ∧ sub ≠ [] then
      pyReplaceAux sub fuel ((c :: rest).drop sub.length)
    else
      c :: pyReplaceAux sub fuel rest

/-- `s.replace(sub, '')` on character lists. -/
def pyReplaceEmpty (sub l : List Char) : List Char :=
  pyReplaceAux sub l.length l

/-- Membership test for `str.strip('{}')`'s strip set. -/
def isBrace (c : Char) : Bool :=
  c == '\x7b' || c == '\x7d'

/-- Hexadecimal digit (either case), as accepted by `int(·, 16)`. -/
def isHexDigit (c : Char) : Bool :=
  c.isDigit || ('a' ≤ c && c ≤ 'f') || ('A' ≤ c && c ≤ 'F')

/-- Python's `s.strip('{}')`: drop leading and trailing braces. -/
def stripBraces (l : List Char) : List Char :=
  ((l.dropWhile isBrace).reverse.dropWhile isBrace).reverse

/-- The character normalisation performed by `uuid.UUID` on its `hex`
argument: remove `urn:` and `uuid:` occurrences, strip braces, remove
hyphens. -/
def uuidMunge (l : List Char) : List Char :=
  (stripBraces (pyReplaceEmpty "uuid:".data (pyReplaceEmpty "urn:".data l))).filter
    (fun c => !(c == '-'))

/-- Success of `uuid.UUID(s)` for a string argument `s`. -/
def checkValidUuidStr (s : String) : Bool :=
  (uuidMunge s.data).length == 32 && (uuidMunge s.data).all isHexDigit

/-- The Python values a caller can hand to `check_valid_uuid` (the job id
is normally a `str`, but nothing in the source restricts the argument). -/
inductive PyValue where
  | none
  | str (s : String)
  | int (n : Int)
  | bool (b : Bool)
deriving DecidableEq

/-- Exceptions `uuid.UUID` can raise on these inputs. -/
inductive PyErr where
  | attributeError
  | valueError
deriving DecidableEq

/-- `uuid.UUID(v)`: non-`str` values fail on `v.replace(...)` with
`AttributeError`; strings fail with `ValueError` unless the munged form is
32 hex digits. -/
def uuidParse : PyValue → Except PyErr Unit
  | .str s => if checkValidUuidStr s then .ok () else .error .valueError
  | _ => .error .attributeError

/-- `check_valid_uuid(job_id)`: `uuid.UUID(job_id)` under a bare
`except:` returning `False`, else `True`. -/
def check_valid_uuid (v : PyValue) : Bool :=
  match uuidParse v with
  | .ok _ => true
  | .error _ => false

/-! ## Canonical UUID grammar (from the spec's words)

Modelled from the spec: "`validate(id) -> bool`: returns true iff `id`
parses as a UUID in canonical textual form".  Canonical textual form is
the 8-4-4-4-12 hyphenated hexadecimal rendering.  This definition follows
the spec, not the source, and exists only to be compared with
`checkValidUuidStr`. -/

/-- Consume exactly `n` hexadecimal digits, returning the remainder. -/
def splitHex : Nat → List Char → Option (List Char)
  | 0, l => some l
  | n + 1, c :: l => if isHexDigit c then splitHex n l else Option.none
  | _ + 1, [] => Option.none

/-- `8-4-4-4-12` hyphen-separated hexadecimal groups, nothing else. -/
def isCanonicalUuid (s : String) : Bool :=
  match splitHex 8 s.data with
  | some ('-' :: r1) =>
    match splitHex 4 r1 with
    | some ('-' :: r2) =>
      match splitHex 4 r2 with
      | some ('-' :: r3) =>
        match splitHex 4 r3 with
        | some ('-' :: r4) =>
          match splitHex 12 r4 with
          | some [] => true
          | _ => false
        | _ => false
      | _ => false
    | _ => false
  | _ => false

/-! ## Data model -/

/-- The submission payload: the JSON document posted to `job_post`.  Only
`job_queue` and `job_id` are inspected by the core; everything else passes
through opaquely as `extra` (keys mapped to their JSON value text).  A
non-string `job_id` value is outside the model (the source would reject it
through `check_valid_uuid`'s bare `except:` anyway). -/
structure JobData where
  job_queue : Option String
  job_id : Option String
  extra : List (String × String)
deriving DecidableEq

/-- Contents of a `DATA_PATH` file: result records are JSON text written
in text mode, artifacts are opaque byte blobs saved by `file.save`. -/
inductive FileData where
  | text (s : String)
  | blob (b : List Nat)
deriving DecidableEq

/-- The HTTP responses the handlers produce. -/
inductive Response where
  /-- A 200 reply with a plain text body (`"OK"`, drained output, ...). -/
  | ok (body : String)
  /-- `jsonify(job_id=job_id)`. -/
  | okJson (job_id : String)
  /-- `job_get` returning a claimed job payload (queue name discarded). -/
  | job (d : JobData)
  /-- `result_get` / `artifacts_get` streaming back a stored file. -/
  | fileResp (contents : FileData)
  /-- `("", 204)`: the defined "not ready yet" reply. -/
  | noContent
  /-- An error reply: message and HTTP status code. -/
  | err (msg : String) (code : Nat)
deriving DecidableEq

/-- One access to a backing store (Redis or the `DATA_PATH` directory),
recorded in execution order by each handler. -/
inductive Effect where
  | queuePush (queue : String) (data : JobData)
  | queuePop (queues : List String) (timeout : Nat) (result : Option (String × JobData))
  | fileExists (path : String) (result : Bool)
  | fileWrite (path : String) (contents : FileData)
  | fileRead (path : String)
  | fileSend (path : String)
  | streamAppend (key : String) (chunk : String)
  | streamExpire (key : String) (seconds : Nat)
  | streamDrain (key : String) (chunks : List String)
deriving DecidableEq

/-- The whole observable server state: `dataPath` is the immutable
`DATA_PATH` configuration entry; `queues` and `streams` are the Redis
lists (head = left end), `streamTTL` the TTLs set by `expire`, `files` the
`DATA_PATH` directory. -/
structure ServerState where
  dataPath : String
  queues : List (String × List JobData)
  streams : List (String × List String)
  streamTTL : List (String × Nat)
  files : List (String × FileData)
deriving DecidableEq

/-- `os.path.join(a, b)` for a single join (posixpath: an absolute `b`
discards `a`; otherwise a `/` separator is inserted unless `a` is empty or
already ends in `/`). -/
def osPathJoin (a b : String) : String :=
  if b.data.head? = some '/' then b
  else if a = "" ∨ a.data.getLast? = some '/' then a ++ b
  else a ++ "/" ++ b

/-- `json.dumps({'job_state': s})`. -/
def jobStateJson (s : String) : String :=
  "\x7b\"job_state\": \"" ++ s ++ "\"\x7d"

/-- Python's `'\n'.join`. -/
def joinNL : List String → String
  | [] => ""
  | [x] => x
  | x :: y :: rest => x ++ "\n" ++ joinNL (y :: rest)

/-! ## Handlers

Each handler takes the pre-state (plus its request inputs) and returns the
response, the post-state, and the ordered list of store accesses it made.
The `freshId` argument of `job_post` stands for the `str(uuid.uuid4())`
the source draws when no usable `job_id` is supplied. -/

/-- `submit_job(job_queue, data)`: `client.lpush(job_queue, data)`. -/
def submit_job (st : ServerState) (job_queue : String) (data : JobData) : ServerState :=
  { st with queues := insertL st.queues job_queue (data :: lookupD st.queues job_queue []) }

/-- `BRPOP` timeout used by `get_job` (seconds). -/
def GET_JOB_TIMEOUT : Nat := 1

/-- Redis `BRPOP queue_list`: the keys are checked in the order given and
an element is popped from the right end (tail) of the first non-empty
list; with every list empty the call times out and yields nothing. -/
def brpop (st : ServerState) (qs : List String) :
    Option (String × JobData × ServerState) :=
  match qs with
  | [] => none
  | q :: rest =>
    match lookupD st.queues q [] with
    | [] => brpop st rest
    | x :: xs =>
      some (q, (x :: xs).getLast (List.cons_ne_nil x xs),
        { st with queues := insertL st.queues q (x :: xs).dropLast })

/-- `get_job(queue_list)`: `client.brpop(queue_list, timeout=1)`; a `None`
reply fails tuple unpacking with `TypeError`, caught and turned into
`None`; otherwise the queue name is discarded and the job returned. -/
def get_job (st : ServerState) (queue_list : List String) :
    Option JobData × ServerState × List Effect :=
  match brpop st queue_list with
  | none => (none, st, [.queuePop queue_list GET_JOB_TIMEOUT none])
  | some (q, j, st') => (some j, st', [.queuePop queue_list GET_JOB_TIMEOUT (some (q, j))])

/-- Common tail of `job_post` once `job_queue` and the job id are settled:
`submit_job`, then the existence check on the result file, then the write
of the `job_state` placeholder record, then `jsonify(job_id=job_id)`. -/
def jobPostCommit (st : ServerState) (q : String) (d : JobData) (jid : String) :
    Response × ServerState × List Effect :=
  let st1 := submit_job st q d
  let key := osPathJoin st1.dataPath jid
  let existed := (lookupL st1.files key).isSome
  let contents := FileData.text (jobStateJson (if existed then "resubmitted" else "waiting"))
  (.okJson jid,
   { st1 with files := insertL st1.files key contents },
   [.queuePush q d, .fileExists key existed, .fileWrite key contents])

/-- `job_post()`.  `data = none` models `request.get_json()` yielding no
dict (the `AttributeError` branch sets `job_queue = None`).  A falsy
`job_queue` (absent or `""`) is rejected; a falsy `job_id` (absent or
`""`) is replaced by the fresh uuid4 and written back into the payload; a
supplied truthy `job_id` must pass `check_valid_uuid`. -/
def job_post (st : ServerState) (data : Option JobData) (freshId : String) :
    Response × ServerState × List Effect :=
  match data with
  | none => (.err "Invalid data or no job_queue specified\n" 400, st, [])
  | some d =>
    match d.job_queue with
    | none => (.err "Invalid data or no job_queue specified\n" 400, st, [])
    | some q =>
      if q = "" then (.err "Invalid data or no job_queue specified\n" 400, st, [])
      else
        match d.job_id with
        | none => jobPostCommit st q { d with job_id := some freshId } freshId
        | some jid =>
          if jid = "" then jobPostCommit st q { d with job_id := some freshId } freshId
          else if checkValidUuidStr jid then jobPostCommit st q d jid
          else (.err "Invalid job_id specified\n" 400, st, [])

/-- `job_get()`: empty queue list is a 400; otherwise `get_job`, with a
falsy (absent) job answered by `("", 204)`. -/
def job_get (st : ServerState) (queue_list : List String) :
    Response × ServerState × List Effect :=
  if queue_list = [] then (.err "No queue(s) specified in request" 400, st, [])
  else
    match get_job st queue_list with
    | (some j, st', tr) => (.job j, st', tr)
    | (none, st', tr) => (.noContent, st', tr)

/-- `result_post(job_id)`: gate on `check_valid_uuid`, then overwrite the
result file with the posted document's JSON text. -/
def result_post (st : ServerState) (job_id : String) (data : String) :
    Response × ServerState × List Effect :=
  if checkValidUuidStr job_id then
    let key := osPathJoin st.dataPath job_id
    (.ok "OK",
     { st with files := insertL st.files key (.text data) },
     [.fileWrite key (.text data)])
  else (.err "Invalid job id\n" 400, st, [])

/-- `result_get(job_id)`: gate on `check_valid_uuid`; `("", 204)` when the
result file does not exist, else its raw contents. -/
def result_get (st : ServerState) (job_id : String) :
    Response × ServerState × List Effect :=
  if checkValidUuidStr job_id then
    let key := osPathJoin st.dataPath job_id
    match lookupL st.files key with
    | none => (.noContent, st, [.fileExists key false])
    | some f => (.fileResp f, st, [.fileExists key true, .fileRead key])
  else (.err "Invalid job id\n" 400, st, [])

/-- `artifacts_post(job_id)`: gate on `check_valid_uuid`, then save the
uploaded blob under `<job_id>.artifact`. -/
def artifacts_post (st : ServerState) (job_id : String) (fileBytes : List Nat) :
    Response × ServerState × List Effect :=
  if checkValidUuidStr job_id then
    let key := osPathJoin st.dataPath (job_id ++ ".artifact")
    (.ok "OK",
     { st with files := insertL st.files key (.blob fileBytes) },
     [.fileWrite key (.blob fileBytes)])
  else (.err "Invalid job id\n" 400, st, [])

/-- `artifacts_get(job_id)`: gate on `check_valid_uuid`; `("", 204)` when
the artifact file does not exist, else `send_file` of it. -/
def artifacts_get (st : ServerState) (job_id : String) :
    Response × ServerState × List Effect :=
  if checkValidUuidStr job_id then
    let key := osPathJoin st.dataPath (job_id ++ ".artifact")
    match lookupL st.files key with
    | none => (.noContent, st, [.fileExists key false])
    | some f => (.fileResp f, st, [.fileExists key true, .fileSend key])
  else (.err "Invalid job id\n" 400, st, [])

/-- `expire` window re-armed on every output append (seconds). -/
def OUTPUT_EXPIRE_SECONDS : Nat := 14400

/-- `output_get(job_id)`: gate on `check_valid_uuid`; a pipeline of
`lrange(key, 0, -1)` and `delete(key)` executed atomically; a truthy
(non-empty) chunk list is newline-joined, otherwise `("", 204)`. -/
def output_get (st : ServerState) (job_id : String) :
    Response × ServerState × List Effect :=
  if checkValidUuidStr job_id then
    let key := "stream_" ++ job_id
    let chunks := lookupD st.streams key []
    let st' := { st with streams := removeL st.streams key,
                         streamTTL := removeL st.streamTTL key }
    (if chunks = [] then .noContent else .ok (joinNL chunks), st',
     [.streamDrain key chunks])
  else (.err "Invalid job id\n" 400, st, [])

/-- `output_post(job_id)`: gate on `check_valid_uuid`, then
`rpush(stream_<id>, data)` and `expire(stream_<id>, 14400)`. -/
def output_post (st : ServerState) (job_id : String) (data : String) :
    Response × ServerState × List Effect :=
  if checkValidUuidStr job_id then
    let key := "stream_" ++ job_id
    (.ok "OK",
     { st with streams := insertL st.streams key (lookupD st.streams key [] ++ [data]),
               streamTTL := insertL st.streamTTL key OUTPUT_EXPIRE_SECONDS },
     [.streamAppend key data, .streamExpire key OUTPUT_EXPIRE_SECONDS])
  else (.err "Invalid job id\n" 400, st, [])

/-! ## Operation sequences (for state invariants) -/

/-- One API call with its request inputs. -/
inductive Op where
  | jobPost (data : Option JobData) (freshId : String)
  | jobGet (queues : List String)
  | resultPost (job_id : String) (data : String)
  | resultGet (job_id : String)
  | artifactsPost (job_id : String) (fileBytes : List Nat)
  | artifactsGet (job_id : String)
  | outputPost (job_id : String) (data : String)
  | outputGet (job_id : String)

/-- The state reached after one operation. -/
def stepOp (st : ServerState) (op : Op) : ServerState :=
  match op with
  | .jobPost data freshId => (job_post st data freshId).2.1
  | .jobGet queues => (job_get st queues).2.1
  | .resultPost job_id data => (result_post st job_id data).2.1
  | .resultGet job_id => (result_get st job_id).2.1
  | .artifactsPost job_id fileBytes => (artifacts_post st job_id fileBytes).2.1
  | .artifactsGet job_id => (artifacts_get st job_id).2.1
  | .outputPost job_id data => (output_post st job_id data).2.1
  | .outputGet job_id => (output_get st job_id).2.1

/-- The state reached after a sequence of operations. -/
def runOps (st : ServerState) (ops : List Op) : ServerState :=
  ops.foldl stepOp st

/-- Payload `d` with its `job_id` field set to `jid` (the source's
`data['job_id'] = job_id`). -/
def withJobId (d : JobData) (jid : String) : JobData := { d with job_id := some jid }

/-- The id a submission ends up keyed under: the supplied `job_id` when it
is truthy, else the freshly generated uuid4. -/
def effectiveJobId (d : JobData) (fresh : String) : String :=
  match d.job_id with
  | Option.none => fresh
  | some jid => if jid = "" then fresh else jid

/-! ## Concrete sample data for witnesses -/

/-- A server state with empty stores and `DATA_PATH = "/data"`. -/
def sampleState : ServerState := ⟨"/data", [], [], [], []⟩

/-- A canonical UUID string. -/
def sampleUuid : String := "12345678-1234-1234-1234-123456789abc"

/-- A submission payload naming queue `q1` and carrying `sampleUuid`. -/
def sampleJob : JobData := ⟨some "q1", some sampleUuid, [("k", "v")]⟩

/-- A state holding one job on queue `q1`, for the C7 witness. -/
def sampleStateQ : ServerState := ⟨"/data", [("q1", [sampleJob])], [], [], []⟩

/-- A second distinct submission payload for the C9 witness. -/
def sampleJob2 : JobData := ⟨some "q1", some "87654321-4321-4321-4321-cba987654321", []⟩


/-! ## Lemmas about the UUID validator -/

theorem pyReplaceAux_of_not_mem {sub : List Char} {c : Char} (hc : c ∈ sub) :
    ∀ (fuel : Nat) (l : List Char), c ∉ l → pyReplaceAux sub fuel l = l := by
  intro fuel
  induction fuel with
  | zero => intro l _; cases l <;> rfl
  | succ n ih =>
    intro l hl
    cases l with
    | nil => rfl
    | cons a rest =>
      have hpre : ¬ (sub.isPrefixOf (a :: rest) ∧ sub ≠ []) := by
        rintro ⟨hp, -⟩
        exact hl ((List.isPrefixOf_iff_prefix.mp hp).subset hc)
      have hmem : c ∉ rest := fun h => hl (List.mem_cons_of_mem a h)
      simp only [pyReplaceAux, if_neg hpre]
      rw [ih rest hmem]

theorem stripBraces_of_no_brace {l : List Char} (h : ∀ x ∈ l, isBrace x = false) :
    stripBraces l = l := by
  have h1 : l.dropWhile isBrace = l := by
    cases l with
    | nil => rfl
    | cons a rest => rw [List.dropWhile_cons, if_neg (by simp [h a (List.mem_cons_self a rest)])]
  have h2 : l.reverse.dropWhile isBrace = l.reverse := by
    cases hr : l.reverse with
    | nil => rfl
    | cons a rest =>
      have ha : a ∈ l := by
        have : a ∈ l.reverse := by rw [hr]; exact List.mem_cons_self a rest
        simpa using this
      rw [List.dropWhile_cons, if_neg (by simp [h a ha])]
  rw [stripBraces, h1, h2, List.reverse_reverse]

theorem splitHex_decomp :
    ∀ (n : Nat) (l r : List Char), splitHex n l = some r →
      ∃ h, l = h ++ r ∧ h.length = n ∧ ∀ c ∈ h, isHexDigit c = true := by
  intro n
  induction n with
  | zero =>
    intro l r h
    obtain rfl : l = r := by simpa [splitHex] using h
    exact ⟨[], rfl, rfl, by simp⟩
  | succ m ih =>
    intro l r h
    cases l with
    | nil => simp [splitHex] at h
    | cons c rest =>
      by_cases hc : isHexDigit c = true
      · have h' : splitHex m rest = some r := by simpa [splitHex, hc] using h
        obtain ⟨hd, heq, hlen, hhex⟩ := ih rest r h'
        refine ⟨c :: hd, by simp [heq], by simp [hlen], ?_⟩
        intro x hx
        rcases List.mem_cons.mp hx with hx | hx
        · subst hx; exact hc
        · exact hhex x hx
      · simp [splitHex, hc] at h

theorem isHexDigit_ne_colon {c : Char} (h : isHexDigit c = true) : c ≠ ':' := by
  rintro rfl; exact absurd h (by decide)

theorem isHexDigit_ne_hyphen {c : Char} (h : isHexDigit c = true) : c ≠ '-' := by
  rintro rfl; exact absurd h (by decide)

theorem isHexDigit_not_brace {c : Char} (h : isHexDigit c = true) : isBrace c = false := by
  rcases hb : isBrace c with _ | _
  · rfl
  · exfalso
    have : c = '\x7b' ∨ c = '\x7d' := by
      have := hb
      simp [isBrace] at this
      tauto
    rcases this with rfl | rfl <;> exact absurd h (by decide)

/-- A canonical UUID string decomposes into its five hex groups. -/
theorem isCanonicalUuid_decomp {s : String} (h : isCanonicalUuid s = true) :
    ∃ g1 g2 g3 g4 g5 : List Char,
      s.data = g1 ++ '-' :: (g2 ++ '-' :: (g3 ++ '-' :: (g4 ++ '-' :: g5))) ∧
      g1.length = 8 ∧ g2.length = 4 ∧ g3.length = 4 ∧ g4.length = 4 ∧ g5.length = 12 ∧
      (∀ c ∈ g1, isHexDigit c = true) ∧ (∀ c ∈ g2, isHexDigit c = true) ∧
      (∀ c ∈ g3, isHexDigit c = true) ∧ (∀ c ∈ g4, isHexDigit c = true) ∧
      (∀ c ∈ g5, isHexDigit c = true) := by
  unfold isCanonicalUuid at h
  split at h <;> try exact absurd h Bool.false_ne_true
  rename_i r1 h1
  split at h <;> try exact absurd h Bool.false_ne_true
  rename_i r2 h2
  split at h <;> try exact absurd h Bool.false_ne_true
  rename_i r3 h3
  split at h <;> try exact absurd h Bool.false_ne_true
  rename_i r4 h4
  split at h <;> try exact absurd h Bool.false_ne_true
  rename_i h5
  obtain ⟨g1, e1, l1, x1⟩ := splitHex_decomp _ _ _ h1
  obtain ⟨g2, e2, l2, x2⟩ := splitHex_decomp _ _ _ h2
  obtain ⟨g3, e3, l3, x3⟩ := splitHex_decomp _ _ _ h3
  obtain ⟨g4, e4, l4, x4⟩ := splitHex_decomp _ _ _ h4
  obtain ⟨g5, e5, l5, x5⟩ := splitHex_decomp _ _ _ h5
  refine ⟨g1, g2, g3, g4, g5, ?_, l1, l2, l3, l4, l5, x1, x2, x3, x4, x5⟩
  rw [e1, e2, e3, e4]
  simp only [List.append_nil] at e5
  rw [e5]

theorem filter_hyphen_of_hex {g : List Char} (h : ∀ c ∈ g, isHexDigit c = true) :
    g.filter (fun c => !(c == '-')) = g := by
  refine List.filter_eq_self.mpr ?_
  intro a ha
  simp [isHexDigit_ne_hyphen (h a ha)]

theorem canonical_munge {s : String} (h : isCanonicalUuid s = true) :
    ∃ g1 g2 g3 g4 g5 : List Char,
      uuidMunge s.data = g1 ++ g2 ++ g3 ++ g4 ++ g5 ∧
      g1.length = 8 ∧ g2.length = 4 ∧ g3.length = 4 ∧ g4.length = 4 ∧ g5.length = 12 ∧
      (∀ c ∈ g1, isHexDigit c = true) ∧ (∀ c ∈ g2, isHexDigit c = true) ∧
      (∀ c ∈ g3, isHexDigit c = true) ∧ (∀ c ∈ g4, isHexDigit c = true) ∧
      (∀ c ∈ g5, isHexDigit c = true) := by
  obtain ⟨g1, g2, g3, g4, g5, hs, l1, l2, l3, l4, l5, x1, x2, x3, x4, x5⟩ :=
    isCanonicalUuid_decomp h
  have hmem : ∀ c ∈ s.data, isHexDigit c = true ∨ c = '-' := by
    intro c hc
    rw [hs] at hc
    simp only [List.mem_append, List.mem_cons] at hc
    rcases hc with hc | hc | hc
    · exact Or.inl (x1 c hc)
    · exact Or.inr hc
    · rcases hc with hc | hc | hc
      · exact Or.inl (x2 c hc)
      · exact Or.inr hc
      · rcases hc with hc | hc | hc
        · exact Or.inl (x3 c hc)
        · exact Or.inr hc
        · rcases hc with hc | hc | hc
          · exact Or.inl (x4 c hc)
          · exact Or.inr hc
          · exact Or.inl (x5 c hc)
  have hcolon : ':' ∉ s.data := by
    intro hc
    rcases hmem ':' hc with hx | hx
    · exact absurd hx (by decide)
    · exact absurd hx (by decide)
  have hurn : pyReplaceEmpty "urn:".data s.data = s.data :=
    @pyReplaceAux_of_not_mem "urn:".data ':' (by decide) _ _ hcolon
  have huuid : pyReplaceEmpty "uuid:".data s.data = s.data :=
    @pyReplaceAux_of_not_mem "uuid:".data ':' (by decide) _ _ hcolon
  have hstrip : stripBraces s.data = s.data := by
    refine stripBraces_of_no_brace ?_
    intro x hx
    rcases hmem x hx with hx' | hx'
    · exact isHexDigit_not_brace hx'
    · subst hx'; rfl
  refine ⟨g1, g2, g3, g4, g5, ?_, l1, l2, l3, l4, l5, x1, x2, x3, x4, x5⟩
  rw [uuidMunge, hurn, huuid, hstrip, hs]
  simp [List.filter_append, List.filter_cons, filter_hyphen_of_hex x1,
    filter_hyphen_of_hex x2, filter_hyphen_of_hex x3, filter_hyphen_of_hex x4,
    filter_hyphen_of_hex x5, List.append_assoc]

/-- Every canonical UUID string passes `check_valid_uuid`. -/
theorem canonical_accepted {s : String} (h : isCanonicalUuid s = true) :
    checkValidUuidStr s = true := by
  obtain ⟨g1, g2, g3, g4, g5, hm, l1, l2, l3, l4, l5, x1, x2, x3, x4, x5⟩ := canonical_munge h
  have hlen : (g1 ++ g2 ++ g3 ++ g4 ++ g5).length = 32 := by
    simp [List.length_append, l1, l2, l3, l4, l5]
  have hall : (g1 ++ g2 ++ g3 ++ g4 ++ g5).all isHexDigit = true := by
    refine List.all_eq_true.mpr ?_
    intro a ha
    simp only [List.append_assoc, List.mem_append] at ha
    rcases ha with ha | ha | ha | ha | ha
    · exact x1 a ha
    · exact x2 a ha
    · exact x3 a ha
    · exact x4 a ha
    · exact x5 a ha
  simp only [checkValidUuidStr, hm]
  simp
  exact ⟨by omega, x1, x2, x3, x4, x5⟩

/-! ## Lemmas about the stores and handlers -/

@[simp] theorem lookupL_insertL_self {α : Type} (m : List (String × α)) (k : String) (v : α) :
    lookupL (insertL m k v) k = some v := by
  simp [insertL, lookupL]

theorem lookupL_removeL {α : Type} (m : List (String × α)) (k k' : String) (h : k ≠ k') :
    lookupL (removeL m k) k' = lookupL m k' := by
  induction m with
  | nil => rfl
  | cons p rest ih =>
    obtain ⟨a, b⟩ := p
    by_cases ha : a = k
    · subst ha
      simp [removeL, lookupL, ih, h]
    · simp [removeL, lookupL, ha, ih]

theorem lookupL_insertL_ne {α : Type} (m : List (String × α)) (k k' : String) (v : α)
    (h : k ≠ k') : lookupL (insertL m k v) k' = lookupL m k' := by
  simp [insertL, lookupL, fun hh => h hh, lookupL_removeL m k k' h]

theorem lookupL_insertL_isSome {α : Type} (m : List (String × α)) (k k' : String) (v : α)
    (h : (lookupL m k').isSome = true) :
    (lookupL (insertL m k v) k').isSome = true := by
  by_cases hk : k = k'
  · subst hk; simp
  · rw [lookupL_insertL_ne m k k' v hk]; exact h

theorem removeL_removeL {α : Type} (m : List (String × α)) (k : String) :
    removeL (removeL m k) k = removeL m k := by
  induction m with
  | nil => rfl
  | cons p rest ih =>
    obtain ⟨a, b⟩ := p
    by_cases h : a = k
    · simp [removeL, h, ih]
    · simp [removeL, h, ih]

@[simp] theorem removeL_insertL {α : Type} (m : List (String × α)) (k : String) (v : α) :
    removeL (insertL m k v) k = removeL m k := by
  simp [insertL, removeL, removeL_removeL]

@[simp] theorem insertL_insertL {α : Type} (m : List (String × α)) (k : String) (v v' : α) :
    insertL (insertL m k v) k v' = insertL m k v' := by
  simp [insertL, removeL, removeL_removeL]

@[simp] theorem lookupD_insertL_self {α : Type} (m : List (String × α)) (k : String)
    (v d : α) : lookupD (insertL m k v) k d = v := by
  simp [lookupD]


theorem lookupL_removeL_self {α : Type} (m : List (String × α)) (k : String) :
    lookupL (removeL m k) k = none := by
  induction m with
  | nil => rfl
  | cons p rest ih =>
    obtain ⟨a, b⟩ := p
    by_cases h : a = k
    · simp [removeL, h, ih]
    · simp [removeL, lookupL, h, ih]

/-- The result-record file name and the artifact file name derived from
the same id never coincide (the artifact name is nine characters longer). -/
theorem osPathJoin_artifact_length (dp id : String) :
    (osPathJoin dp (id ++ ".artifact")).length = (osPathJoin dp id).length + 9 := by
  have h9 : (".artifact" : String).length = 9 := rfl
  by_cases hid : id = ""
  · subst hid
    simp only [osPathJoin]
    by_cases hdp : dp = "" ∨ dp.data.getLast? = some '/'
    · simp [hdp, String.length_append, h9]
    · simp [hdp, String.length_append, h9]
  · obtain ⟨c, cs, hdata⟩ : ∃ c cs, id.data = c :: cs := by
      cases hd : id.data with
      | nil => exact absurd (String.ext hd) hid
      | cons c cs => exact ⟨c, cs, rfl⟩
    have hhead : (id ++ ".artifact").data.head? = id.data.head? := by
      rw [String.data_append, hdata]; rfl
    simp only [osPathJoin, hhead]
    by_cases hc : id.data.head? = some '/'
    · simp [hc, String.length_append, h9]
    · by_cases hdp : dp = "" ∨ dp.data.getLast? = some '/'
      · simp [hc, hdp, String.length_append, h9]; omega
      · simp [hc, hdp, String.length_append, h9]; omega

theorem osPathJoin_artifact_ne (dp id : String) :
    osPathJoin dp (id ++ ".artifact") ≠ osPathJoin dp id := by
  intro heq
  have := osPathJoin_artifact_length dp id
  rw [heq] at this
  omega

theorem brpop_preserves {st : ServerState} {qs : List String} {q : String} {j : JobData}
    {st' : ServerState} (h : brpop st qs = some (q, j, st')) :
    st'.files = st.files ∧ st'.dataPath = st.dataPath := by
  induction qs with
  | nil => simp [brpop] at h
  | cons a rest ih =>
    unfold brpop at h
    split at h
    · exact ih h
    · injection h with h'
      injection h' with h1 h2
      injection h2 with h3 h4
      rw [← h4]
      exact ⟨rfl, rfl⟩

theorem get_job_preserves (st : ServerState) (qs : List String) :
    (get_job st qs).2.1.files = st.files ∧ (get_job st qs).2.1.dataPath = st.dataPath := by
  unfold get_job
  split
  · exact ⟨rfl, rfl⟩
  · rename_i q j st' heq
    exact brpop_preserves heq

theorem job_get_preserves (st : ServerState) (qs : List String) :
    (job_get st qs).2.1.files = st.files ∧ (job_get st qs).2.1.dataPath = st.dataPath := by
  unfold job_get
  split
  · exact ⟨rfl, rfl⟩
  · split
    · rename_i j st' tr heq
      have := get_job_preserves st qs
      rw [heq] at this
      exact this
    · rename_i st' tr heq
      have := get_job_preserves st qs
      rw [heq] at this
      exact this

theorem jobPostCommit_preserves (st : ServerState) (q : String) (d : JobData) (jid : String) :
    (jobPostCommit st q d jid).2.1.dataPath = st.dataPath ∧
    ∀ k, (lookupL st.files k).isSome = true →
      (lookupL (jobPostCommit st q d jid).2.1.files k).isSome = true := by
  refine ⟨rfl, fun k h => ?_⟩
  exact lookupL_insertL_isSome _ _ _ _ h

theorem job_post_preserves (st : ServerState) (data : Option JobData) (freshId : String) :
    (job_post st data freshId).2.1.dataPath = st.dataPath ∧
    ∀ k, (lookupL st.files k).isSome = true →
      (lookupL (job_post st data freshId).2.1.files k).isSome = true := by
  unfold job_post
  repeat' split
  all_goals first
    | exact jobPostCommit_preserves _ _ _ _
    | exact ⟨rfl, fun k h => h⟩

theorem result_get_state (st : ServerState) (job_id : String) :
    (result_get st job_id).2.1 = st := by
  unfold result_get
  split
  · dsimp only
    split <;> rfl
  · rfl

theorem artifacts_get_state (st : ServerState) (job_id : String) :
    (artifacts_get st job_id).2.1 = st := by
  unfold artifacts_get
  split
  · dsimp only
    split <;> rfl
  · rfl

theorem output_get_preserves (st : ServerState) (job_id : String) :
    (output_get st job_id).2.1.files = st.files ∧
    (output_get st job_id).2.1.dataPath = st.dataPath := by
  unfold output_get
  split
  · exact ⟨rfl, rfl⟩
  · exact ⟨rfl, rfl⟩

theorem output_post_preserves (st : ServerState) (job_id data : String) :
    (output_post st job_id data).2.1.files = st.files ∧
    (output_post st job_id data).2.1.dataPath = st.dataPath := by
  unfold output_post
  split
  · exact ⟨rfl, rfl⟩
  · exact ⟨rfl, rfl⟩

/-- No operation ever deletes a `DATA_PATH` file, and none touches the
`DATA_PATH` configuration. -/
theorem stepOp_preserves (st : ServerState) (op : Op) :
    (stepOp st op).dataPath = st.dataPath ∧
    ∀ k, (lookupL st.files k).isSome = true →
      (lookupL (stepOp st op).files k).isSome = true := by
  cases op with
  | jobPost data freshId =>
    simp only [stepOp]
    exact job_post_preserves st data freshId
  | jobGet queues =>
    simp only [stepOp]
    obtain ⟨hf, hd⟩ := job_get_preserves st queues
    exact ⟨hd, fun k h => by rw [hf]; exact h⟩
  | resultPost job_id data =>
    simp only [stepOp]
    unfold result_post
    split
    · exact ⟨rfl, fun k h => lookupL_insertL_isSome _ _ _ _ h⟩
    · exact ⟨rfl, fun k h => h⟩
  | resultGet job_id =>
    simp only [stepOp]
    rw [result_get_state]
    exact ⟨rfl, fun k h => h⟩
  | artifactsPost job_id fileBytes =>
    simp only [stepOp]
    unfold artifacts_post
    split
    · exact ⟨rfl, fun k h => lookupL_insertL_isSome _ _ _ _ h⟩
    · exact ⟨rfl, fun k h => h⟩
  | artifactsGet job_id =>
    simp only [stepOp]
    rw [artifacts_get_state]
    exact ⟨rfl, fun k h => h⟩
  | outputPost job_id data =>
    simp only [stepOp]
    obtain ⟨hf, hd⟩ := output_post_preserves st job_id data
    exact ⟨hd, fun k h => by rw [hf]; exact h⟩
  | outputGet job_id =>
    simp only [stepOp]
    obtain ⟨hf, hd⟩ := output_get_preserves st job_id
    exact ⟨hd, fun k h => by rw [hf]; exact h⟩

theorem runOps_preserves (ops : List Op) :
    ∀ st : ServerState,
      (runOps st ops).dataPath = st.dataPath ∧
      ∀ k, (lookupL st.files k).isSome = true →
        (lookupL (runOps st ops).files k).isSome = true := by
  induction ops with
  | nil => exact fun st => ⟨rfl, fun k h => h⟩
  | cons op rest ih =>
    intro st
    obtain ⟨hd1, hf1⟩ := stepOp_preserves st op
    obtain ⟨hd2, hf2⟩ := ih (stepOp st op)
    refine ⟨?_, fun k h => ?_⟩
    · show (runOps (stepOp st op) rest).dataPath = st.dataPath
      rw [hd2, hd1]
    · show (lookupL (runOps (stepOp st op) rest).files k).isSome = true
      exact hf2 k (hf1 k h)

/-! ## Claims -/

/-- C5 counterexample: `check_valid_uuid` is **not** "true iff canonical
textual form": the 32 hex digits of a UUID written without hyphens are
accepted by `uuid.UUID` (hence by `check_valid_uuid`) although they are
not the canonical 8-4-4-4-12 rendering, so the claimed equivalence fails
at this input. -/
theorem check_valid_uuid_not_canonical_only :
    checkValidUuidStr "12345678123456781234567812345678" = true ∧
    isCanonicalUuid "12345678123456781234567812345678" = false := by
  decide

/-- C5 (amended): `check_valid_uuid` accepts every string in canonical
UUID textual form, but not only those — it also accepts the other
spellings `uuid.UUID` tolerates (hyphens dropped or displaced, surrounding
braces, a `urn:uuid:` prefix), as the counterexample shows. -/
theorem check_valid_uuid_accepts_canonical (u : String)
    (h : isCanonicalUuid u = true) : checkValidUuidStr u = true :=
  canonical_accepted h

/-- C5 witness: the amended theorem evaluated at a concrete canonical
UUID string. -/
theorem check_valid_uuid_accepts_canonical_witness :
    isCanonicalUuid "12345678-1234-1234-1234-123456789abc" = true ∧
    checkValidUuidStr "12345678-1234-1234-1234-123456789abc" = true :=
  ⟨by decide, check_valid_uuid_accepts_canonical _ (by decide)⟩

/-- C10: `check_valid_uuid` is total and never propagates an exception:
whenever `uuid.UUID` raises (any `PyErr`, e.g. the `AttributeError` on the
non-string value `None`), the bare `except:` turns it into the boolean
`false`, so every caller receives a boolean. -/
theorem check_valid_uuid_catches_all (v : PyValue)
    (h : ∃ e, uuidParse v = Except.error e) : check_valid_uuid v = false := by
  obtain ⟨e, he⟩ := h
  simp [check_valid_uuid, he]

/-- C10 witness: evaluated at the non-string value `None`. -/
theorem check_valid_uuid_catches_all_witness :
    check_valid_uuid PyValue.none = false :=
  check_valid_uuid_catches_all PyValue.none ⟨PyErr.attributeError, rfl⟩

/-- C8: a submission without a usable `job_queue` (no JSON document, the
field absent, or the field empty) is answered with the invalid-request
error and the server performs no store access at all: no queue push, no
result-record write, state unchanged. -/
theorem submit_missing_queue_rejected (st : ServerState) (data : Option JobData)
    (fresh : String)
    (h : data = Option.none ∨
      ∃ d, data = some d ∧ (d.job_queue = Option.none ∨ d.job_queue = some "")) :
    job_post st data fresh =
      (Response.err "Invalid data or no job_queue specified\n" 400, st, []) := by
  rcases h with rfl | ⟨d, rfl, hq⟩
  · rfl
  · rcases hq with hq | hq <;> simp [job_post, hq]

/-- C8 witness: evaluated at a payload whose `job_queue` is empty. -/
theorem submit_missing_queue_rejected_witness :
    job_post sampleState (some ⟨some "", some sampleUuid, []⟩) "f" =
      (Response.err "Invalid data or no job_queue specified\n" 400, sampleState, []) :=
  submit_missing_queue_rejected sampleState (some ⟨some "", some sampleUuid, []⟩) "f"
    (Or.inr ⟨_, rfl, Or.inr rfl⟩)

/-- C6: every id-taking operation (submit with a supplied id, result
write/read, artifact write/read, output append/drain) called with an id
that fails UUID validation answers with the invalid-id error, leaves the
state untouched, and performs not a single store access (empty effect
trace). -/
theorem invalid_id_no_store_access (st : ServerState) (id : String)
    (h : checkValidUuidStr id = false)
    (d : JobData) (q : String) (hdq : d.job_queue = some q) (hqne : q ≠ "")
    (hdi : d.job_id = some id) (hine : id ≠ "")
    (fresh R ch : String) (B : List Nat) :
    job_post st (some d) fresh = (Response.err "Invalid job_id specified\n" 400, st, []) ∧
    result_post st id R = (Response.err "Invalid job id\n" 400, st, []) ∧
    result_get st id = (Response.err "Invalid job id\n" 400, st, []) ∧
    artifacts_post st id B = (Response.err "Invalid job id\n" 400, st, []) ∧
    artifacts_get st id = (Response.err "Invalid job id\n" 400, st, []) ∧
    output_post st id ch = (Response.err "Invalid job id\n" 400, st, []) ∧
    output_get st id = (Response.err "Invalid job id\n" 400, st, []) := by
  refine ⟨?_, ?_, ?_, ?_, ?_, ?_, ?_⟩
  · simp [job_post, hdq, hqne, hdi, hine, h]
  · simp [result_post, h]
  · simp [result_get, h]
  · simp [artifacts_post, h]
  · simp [artifacts_get, h]
  · simp [output_post, h]
  · simp [output_get, h]

/-- C6 witness: evaluated at the id `"not-a-uuid"`. -/
theorem invalid_id_no_store_access_witness :
    checkValidUuidStr "not-a-uuid" = false ∧
    job_post sampleState (some ⟨some "q1", some "not-a-uuid", []⟩) "f" =
      (Response.err "Invalid job_id specified\n" 400, sampleState, []) ∧
    result_post sampleState "not-a-uuid" "R" =
      (Response.err "Invalid job id\n" 400, sampleState, []) ∧
    output_get sampleState "not-a-uuid" =
      (Response.err "Invalid job id\n" 400, sampleState, []) :=
  ⟨by decide,
   (invalid_id_no_store_access sampleState "not-a-uuid" (by decide)
      ⟨some "q1", some "not-a-uuid", []⟩ "q1" rfl (by decide) rfl (by decide)
      "f" "R" "ch" []).1,
   (invalid_id_no_store_access sampleState "not-a-uuid" (by decide)
      ⟨some "q1", some "not-a-uuid", []⟩ "q1" rfl (by decide) rfl (by decide)
      "f" "R" "ch" []).2.1,
   (invalid_id_no_store_access sampleState "not-a-uuid" (by decide)
      ⟨some "q1", some "not-a-uuid", []⟩ "q1" rfl (by decide) rfl (by decide)
      "f" "R" "ch" []).2.2.2.2.2.2⟩

/-- C4: for a valid job id, a result write followed by a result read
returns exactly the posted document, an artifact write followed by an
artifact read returns exactly the posted bytes (even with both stored for
the same id — the artifact key `<id>.artifact` never collides with the
result-record key), and both writes are acknowledged. -/
theorem result_artifact_roundtrip (st : ServerState) (id : String)
    (h : checkValidUuidStr id = true) (R : String) (B : List Nat) :
    (result_post st id R).1 = Response.ok "OK" ∧
    (artifacts_post (result_post st id R).2.1 id B).1 = Response.ok "OK" ∧
    (result_get (artifacts_post (result_post st id R).2.1 id B).2.1 id).1
      = Response.fileResp (FileData.text R) ∧
    (artifacts_get (artifacts_post (result_post st id R).2.1 id B).2.1 id).1
      = Response.fileResp (FileData.blob B) ∧
    osPathJoin st.dataPath (id ++ ".artifact") ≠ osPathJoin st.dataPath id := by
  have hne := osPathJoin_artifact_ne st.dataPath id
  have hst1 : (result_post st id R).2.1
      = { st with files := insertL st.files (osPathJoin st.dataPath id) (.text R) } := by
    simp [result_post, h]
  have hst2 : (artifacts_post (result_post st id R).2.1 id B).2.1
      = { st with files := insertL (insertL st.files (osPathJoin st.dataPath id) (.text R)) (osPathJoin st.dataPath (id ++ ".artifact")) (.blob B) } := by
    rw [hst1]; simp [artifacts_post, h]
  refine ⟨by simp [result_post, h], by rw [hst1]; simp [artifacts_post, h], ?_, ?_, hne⟩
  · rw [hst2]
    simp [result_get, h, lookupL_insertL_ne _ _ _ _ hne, lookupL_insertL_self]
  · rw [hst2]
    simp [artifacts_get, h, lookupL_insertL_self]

/-- C4 witness: evaluated at `sampleUuid` over the empty store. -/
theorem result_artifact_roundtrip_witness :
    checkValidUuidStr sampleUuid = true ∧
    (result_get (artifacts_post (result_post sampleState sampleUuid "R").2.1
        sampleUuid [0, 255]).2.1 sampleUuid).1 = Response.fileResp (FileData.text "R") ∧
    (artifacts_get (artifacts_post (result_post sampleState sampleUuid "R").2.1
        sampleUuid [0, 255]).2.1 sampleUuid).1 = Response.fileResp (FileData.blob [0, 255]) :=
  ⟨by decide,
   (result_artifact_roundtrip sampleState sampleUuid (by decide) "R" [0, 255]).2.2.1,
   (result_artifact_roundtrip sampleState sampleUuid (by decide) "R" [0, 255]).2.2.2.1⟩

theorem brpop_none_of_all_empty {st : ServerState} :
    ∀ qs : List String, (∀ q ∈ qs, lookupD st.queues q [] = []) → brpop st qs = none := by
  intro qs
  induction qs with
  | nil => intro _; rfl
  | cons a rest ih =>
    intro hall
    have ha : lookupD st.queues a [] = [] := hall a (List.mem_cons_self a rest)
    simp [brpop, ha]
    exact ih (fun q hq => hall q (List.mem_cons_of_mem a hq))

/-- C7: claiming with an empty queue list is answered with the
invalid-request error; with a non-empty list and every named queue empty
the blocking pop (bounded by the 1-second `GET_JOB_TIMEOUT`) comes back
empty and the reply is the defined no-job `("", 204)` response, not an
error; and when the pop yields a record the response carries the job
payload only, with the originating queue name discarded. -/
theorem claim_semantics (st : ServerState) (qs : List String) (hne : qs ≠ []) :
    job_get st [] = (Response.err "No queue(s) specified in request" 400, st, []) ∧
    ((∀ q ∈ qs, lookupD st.queues q [] = []) →
      job_get st qs = (Response.noContent, st,
        [Effect.queuePop qs GET_JOB_TIMEOUT Option.none])) ∧
    (∀ qn j st', brpop st qs = some (qn, j, st') →
      job_get st qs = (Response.job j, st',
        [Effect.queuePop qs GET_JOB_TIMEOUT (some (qn, j))])) := by
  refine ⟨rfl, fun hall => ?_, fun qn j st' hb => ?_⟩
  · have hb := brpop_none_of_all_empty qs hall
    simp [job_get, hne, get_job, hb]
  · simp [job_get, hne, get_job, hb]

/-- C7 witness: the three branches evaluated on concrete states. -/
theorem claim_semantics_witness :
    job_get sampleState [] =
      (Response.err "No queue(s) specified in request" 400, sampleState, []) ∧
    job_get sampleState ["q1"] = (Response.noContent, sampleState,
      [Effect.queuePop ["q1"] GET_JOB_TIMEOUT Option.none]) ∧
    job_get sampleStateQ ["q1"] = (Response.job sampleJob,
      ⟨"/data", [("q1", [])], [], [], []⟩,
      [Effect.queuePop ["q1"] GET_JOB_TIMEOUT (some ("q1", sampleJob))]) :=
  ⟨(claim_semantics sampleState ["q1"] (by decide)).1,
   (claim_semantics sampleState ["q1"] (by decide)).2.1 (by decide),
   (claim_semantics sampleStateQ ["q1"] (by decide)).2.2 "q1" sampleJob
     ⟨"/data", [("q1", [])], [], [], []⟩ (by decide)⟩

/-- C3: with the output stream for a valid id `X` initially empty,
appending the chunks `a`, `b`, `c` and then draining returns them joined
in append order (`'\n'.join`), and an immediately following second drain
returns the defined empty `("", 204)` response, not an error, because the
drain read the whole sequence and cleared it in one atomic pipeline. -/
theorem output_stream_order_and_drain (st : ServerState) (X a b c : String)
    (hX : checkValidUuidStr X = true)
    (hempty : lookupD st.streams ("stream_" ++ X) [] = []) :
    (output_get (output_post (output_post (output_post st X a).2.1 X b).2.1 X c).2.1 X).1
      = Response.ok (a ++ "\n" ++ b ++ "\n" ++ c) ∧
    (output_get (output_get (output_post (output_post (output_post st X a).2.1 X b).2.1 X c).2.1 X).2.1 X).1
      = Response.noContent := by
  have h1 : (output_post st X a).2.1 = { st with
      streams := insertL st.streams ("stream_" ++ X) [a],
      streamTTL := insertL st.streamTTL ("stream_" ++ X) OUTPUT_EXPIRE_SECONDS } := by
    simp [output_post, hX, hempty]
  have h2 : (output_post (output_post st X a).2.1 X b).2.1 = { st with
      streams := insertL st.streams ("stream_" ++ X) [a, b],
      streamTTL := insertL st.streamTTL ("stream_" ++ X) OUTPUT_EXPIRE_SECONDS } := by
    rw [h1]; simp [output_post, hX]
  have h3 : (output_post (output_post (output_post st X a).2.1 X b).2.1 X c).2.1 = { st with
      streams := insertL st.streams ("stream_" ++ X) [a, b, c],
      streamTTL := insertL st.streamTTL ("stream_" ++ X) OUTPUT_EXPIRE_SECONDS } := by
    rw [h2]; simp [output_post, hX]
  rw [h3]
  have h4 : (output_get { st with
      streams := insertL st.streams ("stream_" ++ X) [a, b, c],
      streamTTL := insertL st.streamTTL ("stream_" ++ X) OUTPUT_EXPIRE_SECONDS } X).2.1
      = { st with streams := removeL st.streams ("stream_" ++ X),
                  streamTTL := removeL st.streamTTL ("stream_" ++ X) } := by
    simp [output_get, hX]
  constructor
  · simp [output_get, hX, joinNL, String.append_assoc]
  · rw [h4]
    simp [output_get, hX, lookupD, lookupL_removeL_self]

/-- C3 witness: chunks `"a"`, `"b"`, `"c"` under `sampleUuid` on the
empty store. -/
theorem output_stream_order_and_drain_witness :
    (output_get (output_post (output_post (output_post sampleState sampleUuid "a").2.1
        sampleUuid "b").2.1 sampleUuid "c").2.1 sampleUuid).1
      = Response.ok ("a" ++ "\n" ++ "b" ++ "\n" ++ "c") ∧
    (output_get (output_get (output_post (output_post (output_post sampleState sampleUuid "a").2.1
        sampleUuid "b").2.1 sampleUuid "c").2.1 sampleUuid).2.1 sampleUuid).1
      = Response.noContent :=
  ⟨(output_stream_order_and_drain sampleState sampleUuid "a" "b" "c" (by decide) (by decide)).1,
   (output_stream_order_and_drain sampleState sampleUuid "a" "b" "c" (by decide) (by decide)).2⟩

/-- C9: per-queue delivery is FIFO.  `submit_job` pushes on the left end
of the queue's list (`lpush`), so after submitting `d1` then `d2` the list
is `d2 :: d1 :: old`; `get_job` pops from the right end (`brpop`), so
starting from an empty queue the first claim returns `d1` and the next
returns `d2` — strictly in submission order. -/
theorem queue_fifo (st : ServerState) (q : String) (d1 d2 : JobData) :
    lookupD (submit_job (submit_job st q d1) q d2).queues q []
      = d2 :: d1 :: lookupD st.queues q [] ∧
    (lookupD st.queues q [] = [] →
      (get_job (submit_job (submit_job st q d1) q d2) [q]).1 = some d1 ∧
      (get_job (get_job (submit_job (submit_job st q d1) q d2) [q]).2.1 [q]).1 = some d2) := by
  have hq2 : (submit_job (submit_job st q d1) q d2).queues
      = insertL st.queues q (d2 :: d1 :: lookupD st.queues q []) := by
    simp [submit_job]
  constructor
  · rw [hq2]; simp
  · intro hempty
    have hs2 : submit_job (submit_job st q d1) q d2
        = { st with queues := insertL st.queues q [d2, d1] } := by
      simp [submit_job, hempty]
    rw [hs2]
    have hb1 : brpop { st with queues := insertL st.queues q [d2, d1] } [q]
        = some (q, d1, { st with queues := insertL st.queues q [d2] }) := by
      simp [brpop, List.getLast]
    have hg1 : get_job { st with queues := insertL st.queues q [d2, d1] } [q]
        = (some d1, { st with queues := insertL st.queues q [d2] },
           [Effect.queuePop [q] GET_JOB_TIMEOUT (some (q, d1))]) := by
      simp [get_job, hb1]
    rw [hg1]
    have hb2 : brpop { st with queues := insertL st.queues q [d2] } [q]
        = some (q, d2, { st with queues := insertL st.queues q [] }) := by
      simp [brpop, List.getLast]
    simp [get_job, hb2]

/-- C9 witness: two submissions to `q1` on the empty store, claimed back
in order. -/
theorem queue_fifo_witness :
    lookupD (submit_job (submit_job sampleState "q1" sampleJob) "q1" sampleJob2).queues "q1" []
      = [sampleJob2, sampleJob] ∧
    (get_job (submit_job (submit_job sampleState "q1" sampleJob) "q1" sampleJob2) ["q1"]).1
      = some sampleJob ∧
    (get_job (get_job (submit_job (submit_job sampleState "q1" sampleJob) "q1" sampleJob2)
        ["q1"]).2.1 ["q1"]).1 = some sampleJob2 :=
  ⟨(queue_fifo sampleState "q1" sampleJob sampleJob2).1,
   ((queue_fifo sampleState "q1" sampleJob sampleJob2).2 (by decide)).1,
   ((queue_fifo sampleState "q1" sampleJob sampleJob2).2 (by decide)).2⟩


theorem withJobId_self (d : JobData) (jid : String) (h : d.job_id = some jid) :
    withJobId d jid = d := by
  cases d
  simp_all [withJobId]

/-- What a successful `job_post` does, in full: the response, the
post-state (queue push and result-record write) and the ordered effect
trace. -/
theorem job_post_eq (st : ServerState) (d : JobData) (fresh q : String)
    (hq : d.job_queue = some q) (hqne : q ≠ "")
    (hid : ∀ j, d.job_id = some j → j ≠ "" → checkValidUuidStr j = true) :
    job_post st (some d) fresh =
      (Response.okJson (effectiveJobId d fresh),
       { st with
         queues := insertL st.queues q
           (withJobId d (effectiveJobId d fresh) :: lookupD st.queues q []),
         files := insertL st.files (osPathJoin st.dataPath (effectiveJobId d fresh))
           (FileData.text (jobStateJson
             (if (lookupL st.files (osPathJoin st.dataPath (effectiveJobId d fresh))).isSome
              then "resubmitted" else "waiting"))) },
       [Effect.queuePush q (withJobId d (effectiveJobId d fresh)),
        Effect.fileExists (osPathJoin st.dataPath (effectiveJobId d fresh))
          ((lookupL st.files (osPathJoin st.dataPath (effectiveJobId d fresh))).isSome),
        Effect.fileWrite (osPathJoin st.dataPath (effectiveJobId d fresh))
          (FileData.text (jobStateJson
            (if (lookupL st.files (osPathJoin st.dataPath (effectiveJobId d fresh))).isSome
             then "resubmitted" else "waiting")))]) := by
  cases hjid : d.job_id with
  | none =>
    simp [job_post, hq, hqne, hjid, jobPostCommit, submit_job, withJobId, effectiveJobId]
  | some jid =>
    by_cases hje : jid = ""
    · subst hje
      simp [job_post, hq, hqne, hjid, jobPostCommit, submit_job, withJobId, effectiveJobId]
    · have hv := hid jid hjid hje
      rw [withJobId_self d (effectiveJobId d fresh) (by simp [effectiveJobId, hjid, hje])]
      simp [job_post, hq, hqne, hjid, hje, hv, jobPostCommit, submit_job, effectiveJobId]

/-- C1: a submission with a non-empty queue and a valid (or absent, hence
freshly generated) job id performs, in order, (1) the queue push of the
payload carrying the id, (2) the existence check on the result record,
(3) the write of the new result record — `resubmitted` exactly when a
record already existed, `waiting` otherwise — and returns the job id; in
particular a second submission with the same valid id finds the record
written by the first, stores `resubmitted`, and the queue has received
both pushes. -/
theorem submit_pushes_then_records (st : ServerState) (d : JobData) (fresh q : String)
    (hq : d.job_queue = some q) (hqne : q ≠ "")
    (hid : ∀ j, d.job_id = some j → j ≠ "" → checkValidUuidStr j = true) :
    job_post st (some d) fresh =
      (Response.okJson (effectiveJobId d fresh),
       { st with
         queues := insertL st.queues q
           (withJobId d (effectiveJobId d fresh) :: lookupD st.queues q []),
         files := insertL st.files (osPathJoin st.dataPath (effectiveJobId d fresh))
           (FileData.text (jobStateJson
             (if (lookupL st.files (osPathJoin st.dataPath (effectiveJobId d fresh))).isSome
              then "resubmitted" else "waiting"))) },
       [Effect.queuePush q (withJobId d (effectiveJobId d fresh)),
        Effect.fileExists (osPathJoin st.dataPath (effectiveJobId d fresh))
          ((lookupL st.files (osPathJoin st.dataPath (effectiveJobId d fresh))).isSome),
        Effect.fileWrite (osPathJoin st.dataPath (effectiveJobId d fresh))
          (FileData.text (jobStateJson
            (if (lookupL st.files (osPathJoin st.dataPath (effectiveJobId d fresh))).isSome
             then "resubmitted" else "waiting")))]) ∧
    (∀ j0, d.job_id = some j0 → j0 ≠ "" →
      (job_post (job_post st (some d) fresh).2.1 (some d) fresh).1 = Response.okJson j0 ∧
      lookupL (job_post (job_post st (some d) fresh).2.1 (some d) fresh).2.1.files
          (osPathJoin st.dataPath j0) = some (FileData.text (jobStateJson "resubmitted")) ∧
      lookupD (job_post (job_post st (some d) fresh).2.1 (some d) fresh).2.1.queues q []
        = d :: d :: lookupD st.queues q []) := by
  refine ⟨job_post_eq st d fresh q hq hqne hid, ?_⟩
  intro j0 hj0 hne0
  have heff : effectiveJobId d fresh = j0 := by simp [effectiveJobId, hj0, hne0]
  have hwj : withJobId d j0 = d := withJobId_self d j0 hj0
  have h1 := job_post_eq st d fresh q hq hqne hid
  rw [h1]
  rw [job_post_eq _ d fresh q hq hqne hid]
  refine ⟨by simp [heff], ?_, ?_⟩
  · simp [heff, hwj]
  · simp [heff, hwj]

/-- C1 witness: `sampleJob` (queue `q1`, id `sampleUuid`) submitted twice
onto the empty store. -/
theorem submit_pushes_then_records_witness :
    (job_post sampleState (some sampleJob) "f").1 = Response.okJson sampleUuid ∧
    lookupL (job_post (job_post sampleState (some sampleJob) "f").2.1
        (some sampleJob) "f").2.1.files (osPathJoin sampleState.dataPath sampleUuid)
      = some (FileData.text (jobStateJson "resubmitted")) ∧
    lookupD (job_post (job_post sampleState (some sampleJob) "f").2.1
        (some sampleJob) "f").2.1.queues "q1" [] = [sampleJob, sampleJob] := by
  have h := submit_pushes_then_records sampleState sampleJob "f" "q1" rfl (by decide)
    (fun j hj hne => by
      simp only [sampleJob] at hj
      injection hj with hj2
      subst hj2
      decide)
  refine ⟨?_, ?_, ?_⟩
  · rw [h.1]
    rfl
  · exact (h.2 sampleUuid rfl (by decide)).2.1
  · have h3 := (h.2 sampleUuid rfl (by decide)).2.2
    simpa using h3

/-- Inverting a successful submission: the response `okJson jid` can only
come from the commit path, which wrote the placeholder result record
(`waiting` or `resubmitted`) under `jid`'s result key. -/
theorem job_post_okJson_file {st : ServerState} {data : Option JobData} {fresh jid : String}
    (h : (job_post st data fresh).1 = Response.okJson jid) :
    lookupL (job_post st data fresh).2.1.files (osPathJoin st.dataPath jid)
      = some (FileData.text (jobStateJson "waiting")) ∨
    lookupL (job_post st data fresh).2.1.files (osPathJoin st.dataPath jid)
      = some (FileData.text (jobStateJson "resubmitted")) := by
  cases data with
  | none => simp [job_post] at h
  | some d =>
    cases hjq : d.job_queue with
    | none => simp [job_post, hjq] at h
    | some q =>
      by_cases hqe : q = ""
      · simp [job_post, hjq, hqe] at h
      · cases hjid : d.job_id with
        | none =>
          simp [job_post, hjq, hqe, hjid, jobPostCommit] at h
          subst h
          by_cases hex : (lookupL st.files (osPathJoin st.dataPath fresh)).isSome
          · right
            simp [job_post, hjq, hqe, hjid, jobPostCommit, submit_job, hex]
          · left
            simp [job_post, hjq, hqe, hjid, jobPostCommit, submit_job, hex]
        | some j =>
          by_cases hje : j = ""
          · simp [job_post, hjq, hqe, hjid, hje, jobPostCommit] at h
            subst h
            by_cases hex : (lookupL st.files (osPathJoin st.dataPath fresh)).isSome
            · right
              simp [job_post, hjq, hqe, hjid, hje, jobPostCommit, submit_job, hex]
            · left
              simp [job_post, hjq, hqe, hjid, hje, jobPostCommit, submit_job, hex]
          · by_cases hv : checkValidUuidStr j
            · simp [job_post, hjq, hqe, hjid, hje, hv, jobPostCommit] at h
              subst h
              by_cases hex : (lookupL st.files (osPathJoin st.dataPath j)).isSome
              · right
                simp [job_post, hjq, hqe, hjid, hje, hv, jobPostCommit, submit_job, hex]
              · left
                simp [job_post, hjq, hqe, hjid, hje, hv, jobPostCommit, submit_job, hex]
            · simp [job_post, hjq, hqe, hjid, hje, hv] at h

/-- C2: from the moment a successful submission returns, the result record
exists under the job id's key — first as the `waiting` or `resubmitted`
placeholder — and it still exists after every subsequent sequence of API
operations (nothing ever deletes a result file), so a result read for that
id never observes the absent-record `("", 204)` reply. -/
theorem submit_result_record_persists (st : ServerState) (data : Option JobData)
    (fresh jid : String) (h : (job_post st data fresh).1 = Response.okJson jid)
    (ops : List Op) :
    (lookupL (job_post st data fresh).2.1.files (osPathJoin st.dataPath jid)
        = some (FileData.text (jobStateJson "waiting")) ∨
     lookupL (job_post st data fresh).2.1.files (osPathJoin st.dataPath jid)
        = some (FileData.text (jobStateJson "resubmitted"))) ∧
    (lookupL (runOps (job_post st data fresh).2.1 ops).files
        (osPathJoin st.dataPath jid)).isSome = true ∧
    (result_get (runOps (job_post st data fresh).2.1 ops) jid).1 ≠ Response.noContent := by
  have hfile := job_post_okJson_file h
  have hdp := (job_post_preserves st data fresh).1
  have hsome : (lookupL (job_post st data fresh).2.1.files
      (osPathJoin st.dataPath jid)).isSome = true := by
    rcases hfile with hf | hf <;> simp [hf]
  obtain ⟨hd2, hf2⟩ := runOps_preserves ops (job_post st data fresh).2.1
  have hsome2 := hf2 _ hsome
  refine ⟨hfile, hsome2, ?_⟩
  by_cases hv : checkValidUuidStr jid
  · have hdp2 : (runOps (job_post st data fresh).2.1 ops).dataPath = st.dataPath := by
      rw [hd2, hdp]
    obtain ⟨f, hf⟩ := Option.isSome_iff_exists.mp hsome2
    intro hcontra
    simp [result_get, hv, hdp2, hf] at hcontra
  · intro hcontra
    simp [result_get, hv] at hcontra

/-- C2 witness: after submitting `sampleJob`, an output append and a
result overwrite later, the record is still there and a result read does
not answer 204. -/
theorem submit_result_record_persists_witness :
    (job_post sampleState (some sampleJob) "f").1 = Response.okJson sampleUuid ∧
    (lookupL (runOps (job_post sampleState (some sampleJob) "f").2.1
        [Op.outputPost sampleUuid "x", Op.resultPost sampleUuid "R"]).files
      (osPathJoin sampleState.dataPath sampleUuid)).isSome = true ∧
    (result_get (runOps (job_post sampleState (some sampleJob) "f").2.1
        [Op.outputPost sampleUuid "x", Op.resultPost sampleUuid "R"]) sampleUuid).1
      ≠ Response.noContent := by
  have h := submit_result_record_persists sampleState (some sampleJob) "f" sampleUuid
    (by decide) [Op.outputPost sampleUuid "x", Op.resultPost sampleUuid "R"]
  exact ⟨by decide, h.2.1, h.2.2⟩

end Testflinger
